import Mathlib

/-!
Verification development for the nice-catcher repository.

Shallow embedding of:
- the client session guard in frontend/src/api.ts (token storage helpers,
  request interceptor, 401 response interceptor, refreshAccessToken);
- the Dashboard delete flow (handleDelete, fetchMemos, stopAudioPlayback);
- the memos/projects schema constraints and row-level-security policies
  from supabase schema.sql;
- the served-memo signed-URL translation rule from the backend feature
  document BE_002_Assets_Attachment.md.
-/

namespace NiceCatcher

/-- Browser events dispatched by the token helpers in api.ts:
the nc auth-change event carries the token detail, the nc auth-error
event carries the message detail. -/
inductive AuthEvent where
  | authChange (token : Option String)
  | authErrorEvt (message : Option String)
  deriving DecidableEq, Repr

/-- The slice of browser state that api.ts reads and writes: the three
localStorage keys nc_token, nc_refresh_token and nc_auth_error, plus the
sequence of window events dispatched so far.  A missing key is none. -/
structure ClientState where
  token : Option String
  refreshToken : Option String
  authErrorMsg : Option String
  events : List AuthEvent
  deriving DecidableEq, Repr

/-- JavaScript truthiness of a nullable string: null and the empty string
are falsy, every other string is truthy. -/
def truthy : Option String → Bool
  | some t => !t.isEmpty
  | none => false

/-- getAuthToken from api.ts: localStorage.getItem of nc_token. -/
def getAuthToken (s : ClientState) : Option String := s.token

/-- getRefreshToken from api.ts: localStorage.getItem of nc_refresh_token. -/
def getRefreshToken (s : ClientState) : Option String := s.refreshToken

/-- setAuthToken from api.ts: stores the token when truthy, removes the key
otherwise, and dispatches the auth-change event with the raw detail. -/
def setAuthToken (s : ClientState) (t : Option String) : ClientState :=
  { s with
    token := if truthy t then t else none,
    events := s.events ++ [AuthEvent.authChange t] }

/-- setAuthTokens from api.ts: stores or removes both the access and the
refresh token (JavaScript truthiness decides store versus remove) and
dispatches one auth-change event carrying the access token. -/
def setAuthTokens (s : ClientState) (access refresh : Option String) : ClientState :=
  { s with
    token := if truthy access then access else none,
    refreshToken := if truthy refresh then refresh else none,
    events := s.events ++ [AuthEvent.authChange access] }

/-- clearAuthTokens from api.ts: removes both tokens and dispatches an
auth-change event with a null detail. -/
def clearAuthTokens (s : ClientState) : ClientState :=
  { s with
    token := none,
    refreshToken := none,
    events := s.events ++ [AuthEvent.authChange none] }

/-- setAuthError from api.ts: stores or removes the nc_auth_error key and
dispatches the auth-error event with the raw message detail. -/
def setAuthError (s : ClientState) (m : Option String) : ClientState :=
  { s with
    authErrorMsg := if truthy m then m else none,
    events := s.events ++ [AuthEvent.authErrorEvt m] }

/-- The JSON body of a successful call to the Supabase token endpoint, as
read by refreshAccessToken: both fields may be absent. -/
structure RefreshPayload where
  access_token : Option String
  refresh_token : Option String
  deriving DecidableEq, Repr

/-- Outcome of the fetch performed inside refreshAccessToken: either the
response is not ok, or it is ok and JSON parsing yields some payload
(none models a parse failure, which the code maps to null). -/
inductive FetchOutcome where
  | notOk
  | ok (payload : Option RefreshPayload)
  deriving DecidableEq, Repr

/-- The two Vite environment variables consulted by refreshAccessToken. -/
structure Env where
  supabaseUrl : Option String
  supabaseAnonKey : Option String
  deriving DecidableEq, Repr

/-- The guard in refreshAccessToken on the two environment variables. -/
def envReady (env : Env) : Bool :=
  truthy env.supabaseUrl && truthy env.supabaseAnonKey

/-- The tail of refreshAccessToken after the await fetch suspension point:
computes access as payload access_token else null, refresh as payload
refresh_token else the captured stored refresh token, and when access is
truthy stores both via setAuthTokens and returns access; otherwise
returns null and leaves storage unchanged. -/
def refreshFinish (rt : String) (fr : FetchOutcome) (s : ClientState) :
    Option String × ClientState :=
  match fr with
  | .notOk => (none, s)
  | .ok payload =>
    let access := payload.bind RefreshPayload.access_token
    let refresh := (payload.bind RefreshPayload.refresh_token).getD rt
    if truthy access then (access, setAuthTokens s access (some refresh))
    else (none, s)

/-- refreshAccessToken from api.ts: returns null without any network call
when no truthy refresh token is stored or the environment variables are
missing; otherwise performs the token fetch and finishes as refreshFinish.
The first component is the returned token, the second the storage state
afterwards. -/
def refreshAccessToken (env : Env) (fr : FetchOutcome) (s : ClientState) :
    Option String × ClientState :=
  match s.refreshToken with
  | none => (none, s)
  | some rt =>
    if rt.isEmpty then (none, s)
    else if envReady env then refreshFinish rt fr s
    else (none, s)

/-- The axios request headers object, reduced to the one header api.ts
manipulates. -/
structure Headers where
  authorization : Option String
  deriving DecidableEq, Repr

/-- An axios request config as seen by the two interceptors: headers may be
absent, and the retried marker models the _retriedAfterRefresh expando
property (absent reads as false). -/
structure RequestConfig where
  headers : Option Headers
  retriedAfterRefresh : Bool
  deriving DecidableEq, Repr

/-- The request interceptor of api.ts: when a truthy access token is stored
it materializes the headers object if absent and sets Authorization to
Bearer plus the token; otherwise the config passes through unchanged. -/
def requestInterceptor (s : ClientState) (config : RequestConfig) : RequestConfig :=
  match getAuthToken s with
  | some tok =>
    if tok.isEmpty then config
    else
      { config with
        headers := some { (config.headers.getD { authorization := none }) with
          authorization := some ("Bearer " ++ tok) } }
  | none => config

/-- What the response error interceptor returns for the failed request:
either reissue the config through api.request, or reject with the
original error. -/
inductive ErrorAction where
  | retry (config : RequestConfig)
  | rejectOriginal
  deriving DecidableEq, Repr

/-- Result of one run of the response error interceptor: the action taken,
the client storage afterwards, and how many times refreshAccessToken was
invoked during this run. -/
structure ErrorResult where
  action : ErrorAction
  state : ClientState
  refreshCalls : Nat
  deriving DecidableEq, Repr

/-- The header mutation performed before the reissue: if the config has a
headers object its Authorization is overwritten with the new bearer
token; a config without headers is left as is (the request interceptor
will attach the token on the reissue). -/
def applyRetryHeader (config : RequestConfig) (tok : String) : RequestConfig :=
  match config.headers with
  | some hs =>
    { config with headers := some { hs with authorization := some ("Bearer " ++ tok) } }
  | none => config

/-- The response error interceptor of api.ts.  On a 401 with a config not
yet marked retried it awaits refreshAccessToken once: on a new token it
marks the config retried, rewrites its Authorization header and reissues
the request; on a null result it records the session-expired message,
clears both tokens and rejects with the original error.  Every other
error is rejected unchanged with no refresh call. -/
def responseErrorInterceptor (env : Env) (fr : FetchOutcome)
    (status : Option Nat) (config : Option RequestConfig) (s : ClientState) :
    ErrorResult :=
  match config with
  | none => { action := .rejectOriginal, state := s, refreshCalls := 0 }
  | some cfg =>
    if status == some 401 && !cfg.retriedAfterRefresh then
      let r := refreshAccessToken env fr s
      match r.1 with
      | some tok =>
        { action := .retry (applyRetryHeader { cfg with retriedAfterRefresh := true } tok),
          state := r.2,
          refreshCalls := 1 }
      | none =>
        { action := .rejectOriginal,
          state := clearAuthTokens
            (setAuthError r.2 (some "Session expired. Please sign in again.")),
          refreshCalls := 1 }
    else { action := .rejectOriginal, state := s, refreshCalls := 0 }

/-- One server response to one (re)issued request: either it succeeds, or it
fails and the error carries this optional HTTP status. -/
inductive ServerReply where
  | ok
  | err (status : Option Nat)
  deriving DecidableEq, Repr

/-- Final outcome observed by the caller of the api helper. -/
inductive RunOutcome where
  | success
  | rejected
  | noReply
  deriving DecidableEq, Repr

/-- Aggregate of one full run of a request through the interceptor chain. -/
structure RunResult where
  outcome : RunOutcome
  finalState : ClientState
  refreshCalls : Nat
  reissues : Nat
  deriving DecidableEq, Repr

/-- Executes one original request against a scripted list of server replies:
a success resolves at the call site; an error runs the response error
interceptor, and a retry action consumes the next reply for the reissued
config.  Counts every refreshAccessToken invocation and every reissue. -/
def runRequest (env : Env) (fr : FetchOutcome) :
    List ServerReply → ClientState → RequestConfig → RunResult
  | [], s, _ => { outcome := .noReply, finalState := s, refreshCalls := 0, reissues := 0 }
  | .ok :: _, s, _ => { outcome := .success, finalState := s, refreshCalls := 0, reissues := 0 }
  | .err status :: rest, s, cfg =>
    let r := responseErrorInterceptor env fr status (some cfg) s
    match r.action with
    | .retry cfg2 =>
      let t := runRequest env fr rest r.state cfg2
      { outcome := t.outcome, finalState := t.finalState,
        refreshCalls := r.refreshCalls + t.refreshCalls,
        reissues := 1 + t.reissues }
    | .rejectOriginal =>
      { outcome := .rejected, finalState := r.state,
        refreshCalls := r.refreshCalls, reissues := 0 }

/-- Progress of one caller of the response error interceptor that entered
with a 401 and an unretried config.  The state fetchInFlight marks the
await fetch suspension point inside refreshAccessToken, with the refresh
token constant captured before the fetch was issued. -/
inductive CallerPhase where
  | hit401
  | fetchInFlight (capturedRefreshToken : String)
  | finished (newToken : Option String)
  deriving DecidableEq, Repr

/-- Two concurrent 401 callers sharing the one browser storage. -/
structure TwoCallers where
  store : ClientState
  caller1 : CallerPhase
  caller2 : CallerPhase
  deriving DecidableEq, Repr

/-- Interleaved execution of two concurrent 401 handlers, step by step as
written in api.ts.  A caller starts its refresh when a truthy refresh
token is stored and the environment variables are present; api.ts keeps
no shared in-flight promise and no refreshing flag, so these start steps
carry no condition on the phase of the other caller.  A caller whose
fetch completes applies the tail of refreshAccessToken to the shared
storage. -/
inductive GuardStep (env : Env) : TwoCallers → TwoCallers → Prop where
  | start1 (st : TwoCallers) (rt : String) :
      st.caller1 = .hit401 → st.store.refreshToken = some rt →
      rt.isEmpty = false → envReady env = true →
      GuardStep env st { st with caller1 := .fetchInFlight rt }
  | start2 (st : TwoCallers) (rt : String) :
      st.caller2 = .hit401 → st.store.refreshToken = some rt →
      rt.isEmpty = false → envReady env = true →
      GuardStep env st { st with caller2 := .fetchInFlight rt }
  | finish1 (st : TwoCallers) (rt : String) (fr : FetchOutcome) :
      st.caller1 = .fetchInFlight rt →
      GuardStep env st
        { st with
          store := (refreshFinish rt fr st.store).2,
          caller1 := .finished (refreshFinish rt fr st.store).1 }
  | finish2 (st : TwoCallers) (rt : String) (fr : FetchOutcome) :
      st.caller2 = .fetchInFlight rt →
      GuardStep env st
        { st with
          store := (refreshFinish rt fr st.store).2,
          caller2 := .finished (refreshFinish rt fr st.store).1 }

/-- A concrete environment for the concurrency scenario. -/
def c4Env : Env :=
  { supabaseUrl := some "https://example.supabase.co", supabaseAnonKey := some "anon-key" }

/-- Storage holding a valid session: both tokens present. -/
def c4Store : ClientState :=
  { token := some "stale-access", refreshToken := some "refresh-1",
    authErrorMsg := none, events := [] }

/-- Both callers have just received a 401 on an unretried request. -/
def c4s0 : TwoCallers := { store := c4Store, caller1 := .hit401, caller2 := .hit401 }

/-- Caller 1 has issued its refresh fetch and is suspended awaiting it. -/
def c4s1 : TwoCallers := { c4s0 with caller1 := .fetchInFlight "refresh-1" }

/-- Caller 2 has also issued its own refresh fetch while the first is still
in flight. -/
def c4s2 : TwoCallers := { c4s1 with caller2 := .fetchInFlight "refresh-1" }

/-- A JSON primitive stored inside an attachment object of the memos
attachments jsonb column: a string or a number. -/
inductive JPrim where
  | str (s : String)
  | num (q : Rat)
  deriving DecidableEq, Repr

/-- A JSON object as an ordered list of key and value pairs, matching a
Python dict with insertion order. -/
abbrev JObj := List (String × JPrim)

/-- Dict lookup: the value under the first matching key, if any. -/
def getVal (o : JObj) (k : String) : Option JPrim :=
  match o with
  | [] => none
  | (k2, v) :: rest => if k2 = k then some v else getVal rest k

/-- Dict key deletion. -/
def removeKey (o : JObj) (k : String) : JObj :=
  match o with
  | [] => []
  | (k2, v) :: rest => if k2 = k then removeKey rest k else (k2, v) :: removeKey rest k

/-- Whether the object has a field with this key. -/
def hasKey (o : JObj) (k : String) : Bool :=
  match o with
  | [] => false
  | (k2, _) :: rest => if k2 = k then true else hasKey rest k

/-- A media attachment object exactly as the backend feature document
BE_002_Assets_Attachment.md appends it to the attachments list. -/
def mediaItem (t p mi c : String) : JObj :=
  [("type", .str t), ("path", .str p), ("mime", .str mi), ("created_at", .str c)]

/-- A location attachment object exactly as the backend feature document
appends it: type, lat and lng only, no stored path. -/
def locationItem (lat lng : Rat) : JObj :=
  [("type", .str "location"), ("lat", .num lat), ("lng", .num lng)]

/-- An attachment object is one of the two shapes the repository ever
persists: a media item with type image or video, or a location item. -/
def WellFormedItem (item : JObj) : Prop :=
  (∃ t p mi c, (t = "image" ∨ t = "video") ∧ item = mediaItem t p mi c) ∨
  (∃ la ln, item = locationItem la ln)

/-- A memo row as persisted by the schema in supabase schema.sql: columns
id, user_id, content, audio_path, project_id, status, attachments,
created_at. -/
structure MemoRow where
  id : String
  userId : String
  content : Option String
  audioPath : String
  projectId : Option String
  status : String
  attachments : List JObj
  createdAt : String
  deriving DecidableEq, Repr

/-- Modelled from the spec: the backend response-serialization code is not
under src.  This follows the Signed URL rule pseudocode of
src/docs/features/BE_002_Assets_Attachment.md section 3 for one
attachment dict: for a media typed item, set url to the signed form of
its path field and delete the path key; any other item passes through
unchanged.  A media item without a string path raises in the pseudocode,
modelled as none. -/
def serveItem (sign : String → String) (item : JObj) : Option JObj :=
  match getVal item "type" with
  | none => none
  | some t =>
    if t = JPrim.str "image" ∨ t = JPrim.str "video" then
      match getVal item "path" with
      | some (JPrim.str p) => some (removeKey (item ++ [("url", JPrim.str (sign p))]) "path")
      | _ => none
    else some item

/-- The serving loop of the pseudocode over the whole attachments list;
a failure on any item fails the response. -/
def serveItems (sign : String → String) : List JObj → Option (List JObj)
  | [] => some []
  | item :: rest =>
    match serveItem sign item, serveItems sign rest with
    | some out, some outs => some (out :: outs)
    | _, _ => none

/-- The served memo payload, mirroring the fields the client type Memo in
frontend/src/api.ts receives.  The pseudocode builds the dict from the
row, adds audio_url, and rewrites the attachments; it never deletes the
audio_path key, and the client type requires audio_path. -/
structure ServedMemo where
  id : String
  content : Option String
  audio_path : String
  audio_url : String
  project_id : Option String
  status : String
  attachments : List JObj
  created_at : String
  deriving DecidableEq, Repr

/-- Modelled from the spec: the backend response-serialization code is not
under src.  Serving a memo row per the Signed URL rule pseudocode of
BE_002_Assets_Attachment.md: copy the row fields, set audio_url to the
signed audio path, and transform every attachment with serveItem. -/
def serveMemo (sign : String → String) (m : MemoRow) : Option ServedMemo :=
  match serveItems sign m.attachments with
  | none => none
  | some served =>
    some { id := m.id, content := m.content, audio_path := m.audioPath,
           audio_url := sign m.audioPath, project_id := m.projectId,
           status := m.status, attachments := served, created_at := m.createdAt }

/-- The check constraint memos_status_check from supabase schema.sql:
status in pending, review_needed, done. -/
def memosStatusCheck (s : String) : Bool :=
  s == "pending" || s == "review_needed" || s == "done"

/-- A memo row as the lifecycle operations see it (the key is carried
separately in the store). -/
structure MemoRecord where
  userId : String
  content : Option String
  audioPath : String
  projectId : Option String
  status : String
  attachments : List JObj
  deriving DecidableEq, Repr

/-- The memos table: association list from primary key to row. -/
abbrev MemoStore := List (String × MemoRecord)

/-- Primary key lookup in the memos table. -/
def lookupMemo (store : MemoStore) (id : String) : Option MemoRecord :=
  match store with
  | [] => none
  | (i, r) :: rest => if i = id then some r else lookupMemo rest id

/-- Row replacement by primary key. -/
def replaceMemo (store : MemoStore) (id : String) (nr : MemoRecord) : MemoStore :=
  match store with
  | [] => []
  | (i, r) :: rest =>
    if i = id then (i, nr) :: replaceMemo rest id nr
    else (i, r) :: replaceMemo rest id nr

/-- Row deletion by primary key. -/
def deleteRows (store : MemoStore) (id : String) : MemoStore :=
  match store with
  | [] => []
  | (i, r) :: rest =>
    if i = id then deleteRows rest id else (i, r) :: deleteRows rest id

/-- The partial update body accepted by the update endpoint, as typed by
MemoUpdate in frontend/src/api.ts: absent fields (none at the outer
layer) leave the row field unchanged.  The project field carries the
effective project id after any new_project_name resolution, since that
resolution only produces a project id. -/
structure MemoPatch where
  content : Option String
  projectId : Option (Option String)
  status : Option String
  deriving DecidableEq, Repr

/-- The memo lifecycle operations touching the memos table. -/
inductive MemoOp where
  | capture (id userId : String) (seed : List JObj)
  | transcribe (id : String) (text : String)
  | userUpdate (id : String) (patch : MemoPatch)
  | deleteOp (id : String)
  deriving Repr

/-- Modelled from the spec: the backend lifecycle engine code is not under
src.  Capture (spec section 4.1) writes the audio under a path
namespaced by owner and generated memo identifier and inserts the row
with status pending and null content; the insert respects the primary
key and the memos_status_check constraint of schema.sql.  Transcription
success updates content and sets status review_needed in one update.
A user update applies the partial patch (audio_path is not among the
updatable fields of MemoUpdate); the row store rejects an update whose
new status fails memos_status_check.  Delete removes the row. -/
def applyOp (store : MemoStore) : MemoOp → MemoStore
  | .capture id userId seed =>
    match lookupMemo store id with
    | some _ => store
    | none =>
      let r : MemoRecord :=
        { userId := userId, content := none,
          audioPath := userId ++ "/" ++ id ++ ".webm",
          projectId := none, status := "pending", attachments := seed }
      if memosStatusCheck r.status then (id, r) :: store else store
  | .transcribe id text =>
    match lookupMemo store id with
    | none => store
    | some r =>
      let nr := { r with content := some text, status := "review_needed" }
      if memosStatusCheck nr.status then replaceMemo store id nr else store
  | .userUpdate id patch =>
    match lookupMemo store id with
    | none => store
    | some r =>
      let nr :=
        { r with
          content := match patch.content with | some c => some c | none => r.content,
          projectId := match patch.projectId with | some p => p | none => r.projectId,
          status := match patch.status with | some st => st | none => r.status }
      if memosStatusCheck nr.status then replaceMemo store id nr else store
  | .deleteOp id => deleteRows store id

/-- A sequence of lifecycle operations applied in order. -/
def applyOps (store : MemoStore) (ops : List MemoOp) : MemoStore :=
  ops.foldl applyOp store

/-- The row invariant of the claim: every persisted memo has a status
inside the enum and a nonempty audio path. -/
def MemoInv (store : MemoStore) : Prop :=
  ∀ e ∈ store, memosStatusCheck e.2.status = true ∧ e.2.audioPath ≠ ""

/-- The four row-level commands covered by the policies in schema.sql. -/
inductive SqlCmd where
  | select
  | insert
  | update
  | deleteCmd
  deriving DecidableEq, Repr

/-- The two tables carrying policies in schema.sql. -/
inductive RlsTable where
  | memos
  | projects
  deriving DecidableEq, Repr

/-- The one policy expression used by every policy in schema.sql:
auth.uid() = user_id. -/
inductive RlsExpr where
  | authUidEqUserId
  deriving DecidableEq, Repr

/-- Evaluation of a policy expression against the acting identity and the
user_id of the row. -/
def evalRlsExpr : RlsExpr → String → String → Bool
  | .authUidEqUserId, uid, rowUid => uid == rowUid

/-- One create policy statement from schema.sql: its table, the command it
covers, and its using or with check expression. -/
structure RlsPolicy where
  table : RlsTable
  cmd : SqlCmd
  expr : RlsExpr
  deriving DecidableEq, Repr

/-- The eight policies created in schema.sql, transcribed in order. -/
def schemaPolicies : List RlsPolicy :=
  [ { table := .projects, cmd := .select, expr := .authUidEqUserId },
    { table := .projects, cmd := .insert, expr := .authUidEqUserId },
    { table := .projects, cmd := .update, expr := .authUidEqUserId },
    { table := .projects, cmd := .deleteCmd, expr := .authUidEqUserId },
    { table := .memos, cmd := .select, expr := .authUidEqUserId },
    { table := .memos, cmd := .insert, expr := .authUidEqUserId },
    { table := .memos, cmd := .update, expr := .authUidEqUserId },
    { table := .memos, cmd := .deleteCmd, expr := .authUidEqUserId } ]

/-- Postgres row-level security with RLS enabled on the table: an operation
touches a row only if some permissive policy for that table and command
accepts it; with no matching policy the row store denies by default. -/
def rowAccessAllowed (table : RlsTable) (cmd : SqlCmd) (uid rowUid : String) : Bool :=
  (schemaPolicies.filter (fun p => p.table == table && p.cmd == cmd)).any
    (fun p => evalRlsExpr p.expr uid rowUid)

/-- The recorder state of the Dashboard component. -/
inductive RecorderState where
  | idle
  | recording
  | saving
  | review
  deriving DecidableEq, Repr

/-- The client side Memo type of frontend/src/api.ts. -/
structure FMemo where
  id : String
  content : Option String
  audio_path : String
  audio_url : Option String
  project_id : Option String
  status : String
  attachments : List JObj
  created_at : String
  deriving DecidableEq, Repr

/-- The Dashboard state hooks that handleDelete reads or writes.  The
paused audio element itself is a browser object; its component-visible
trace is currentPlayingId. -/
structure DashboardState where
  state : RecorderState
  errorMsg : Option String
  transcription : String
  currentMemo : Option FMemo
  memos : List FMemo
  currentPlayingId : Option String
  deriving DecidableEq, Repr

/-- stopAudioPlayback from the Dashboard: pauses and drops the audio
element and clears currentPlayingId. -/
def stopAudioPlayback (d : DashboardState) : DashboardState :=
  { d with currentPlayingId := none }

/-- Insertion of one memo into a list already sorted descending by
created_at, as produced by the sort comparator of fetchMemos. -/
def insertDesc (m : FMemo) : List FMemo → List FMemo
  | [] => [m]
  | x :: xs =>
    if x.created_at ≤ m.created_at then m :: x :: xs else x :: insertDesc m xs

/-- The sort in fetchMemos: descending by created_at string comparison. -/
def sortByCreatedAtDesc : List FMemo → List FMemo
  | [] => []
  | x :: xs => insertDesc x (sortByCreatedAtDesc xs)

/-- fetchMemos from the Dashboard: on a successful listMemos it stores the
sorted list; on failure it records the load error message. -/
def fetchMemosInto (d : DashboardState) (result : Option (List FMemo)) : DashboardState :=
  match result with
  | some data => { d with memos := sortByCreatedAtDesc data }
  | none => { d with errorMsg := some "Failed to load memos." }

/-- The synchronous prefix of handleDelete after the user confirmed, i.e.
everything executed before await deleteMemo: clear the error, filter the
memo out of the timeline list, stop playback when it is the one playing,
and clear the editor back to idle when it is the one open. -/
def handleDeletePre (memo : FMemo) (d : DashboardState) : DashboardState :=
  let d1 := { d with errorMsg := none }
  let d2 := { d1 with memos := d1.memos.filter (fun item => !(item.id == memo.id)) }
  let d3 := if d2.currentPlayingId == some memo.id then stopAudioPlayback d2 else d2
  if (d3.currentMemo.map FMemo.id) == some memo.id then
    { d3 with currentMemo := none, transcription := "", state := .idle }
  else d3

/-- Whether the awaited deleteMemo call succeeded or threw. -/
inductive DeleteOutcome where
  | ok
  | err
  deriving DecidableEq, Repr

/-- handleDelete from the Dashboard.  Without confirmation nothing happens.
Otherwise the synchronous prefix runs, then deleteMemo is awaited: on
success nothing more happens; on failure the delete error message is
recorded and the list is refetched from the server (fetchResult is what
that refetch returns). -/
def handleDelete (confirmed : Bool) (memo : FMemo) (outcome : DeleteOutcome)
    (fetchResult : Option (List FMemo)) (d : DashboardState) : DashboardState :=
  if !confirmed then d
  else
    let pre := handleDeletePre memo d
    match outcome with
    | .ok => pre
    | .err =>
      fetchMemosInto { pre with errorMsg := some "Failed to delete memo. Refreshing list." }
        fetchResult

/-- Concrete client storage for the C9 witness: an access token is stored. -/
def c9Client : ClientState :=
  { token := some "tokenA", refreshToken := none, authErrorMsg := none, events := [] }

/-- A fresh request config with no headers object yet. -/
def bareConfig : RequestConfig := { headers := none, retriedAfterRefresh := false }

/-- Refresh payload for the C10 witness: a new access token and no new
refresh token. -/
def c10Payload : RefreshPayload :=
  { access_token := some "fresh-access", refresh_token := none }

/-- Refresh payload for the C1 witness: rotated access and refresh token. -/
def c1Payload : RefreshPayload :=
  { access_token := some "new-access", refresh_token := some "new-refresh" }

/-- Original request config for the C1 witness: headers were attached by
the request interceptor, and the request was not retried yet. -/
def c1Cfg : RequestConfig :=
  { headers := some { authorization := some "Bearer stale-access" },
    retriedAfterRefresh := false }

/-- A concrete signer for the serving scenarios. -/
def c5Sign (p : String) : String := "https://signed.example/" ++ p

/-- A concrete persisted memo row carrying one media and one location
attachment. -/
def c5Row : MemoRow :=
  { id := "m1", userId := "u1", content := some "hello",
    audioPath := "u1/m1.webm", projectId := none, status := "done",
    attachments :=
      [mediaItem "image" "u1/m1/a.jpg" "image/jpeg" "2026-01-01T00:00:00Z",
       locationItem (12 : Rat) (34 : Rat)],
    createdAt := "2026-01-01T00:00:00Z" }

/-- Boolean check that a memo serves successfully with no path key left in
any served attachment object. -/
def servedPathFree (sign : String → String) (m : MemoRow) : Bool :=
  match serveMemo sign m with
  | none => false
  | some served => served.attachments.all (fun item => !(hasKey item "path"))

/-- Client storage for the C2 witness: no refresh token is stored. -/
def c2Client : ClientState :=
  { token := some "stale-access", refreshToken := none,
    authErrorMsg := none, events := [] }

/-- A concrete memos table with one valid row. -/
def c6Store : MemoStore :=
  [("m1", { userId := "u1", content := none, audioPath := "u1/m1.webm",
            projectId := none, status := "pending", attachments := [] })]

/-- A concrete operation sequence: transcription, a user edit filing the
memo into a project, and the capture of a second memo. -/
def c6Ops : List MemoOp :=
  [MemoOp.transcribe "m1" "buy milk",
   MemoOp.userUpdate "m1"
     { content := some "buy milk", projectId := some (some "p1"),
       status := some "done" },
   MemoOp.capture "m2" "u1" []]

/-- A concrete client memo for the delete scenario. -/
def c8Memo : FMemo :=
  { id := "m1", content := some "buy milk", audio_path := "u1/m1.webm",
    audio_url := some "https://signed.example/u1/m1.webm", project_id := none,
    status := "done", attachments := [], created_at := "2026-01-01T00:00:00Z" }

/-- A second client memo that stays in the timeline. -/
def c8Other : FMemo :=
  { id := "m2", content := none, audio_path := "u1/m2.webm",
    audio_url := none, project_id := none, status := "pending",
    attachments := [], created_at := "2026-01-02T00:00:00Z" }

/-- A concrete dashboard where the memo to delete is playing and open in
the editor. -/
def c8Dash : DashboardState :=
  { state := .review, errorMsg := none, transcription := "buy milk",
    currentMemo := some c8Memo, memos := [c8Other, c8Memo],
    currentPlayingId := some "m1" }

/- ------------------------------------------------------------------ -/
/- Theorems. -/
/- ------------------------------------------------------------------ -/

/-- C9: every outbound request through the api client gets Authorization
set to Bearer followed by the stored access token when one is stored,
and passes through without an added Authorization header when none is
stored. -/
theorem spec_c9_request_auth_header (s : ClientState) (cfg : RequestConfig) :
    (∀ t, s.token = some t → t.isEmpty = false →
      (requestInterceptor s cfg).headers =
        some { authorization := some ("Bearer " ++ t) } ∧
      (requestInterceptor s cfg).retriedAfterRefresh = cfg.retriedAfterRefresh) ∧
    (s.token = none → requestInterceptor s cfg = cfg) := by
  constructor
  · intro t ht hne
    simp [requestInterceptor, getAuthToken, ht, hne]
  · intro h
    simp [requestInterceptor, getAuthToken, h]

/-- Witness for C9 at a concrete stored token and a bare config. -/
theorem spec_c9_witness :
    (requestInterceptor c9Client bareConfig).headers =
      some { authorization := some ("Bearer " ++ "tokenA") } :=
  ((spec_c9_request_auth_header c9Client bareConfig).1 "tokenA" rfl rfl).1

/-- C10: when the refresh response carries an access token but no new
refresh token, refreshAccessToken stores the new access token and writes
the previously stored refresh token back, so the refresh token is
retained unchanged. -/
theorem spec_c10_refresh_token_retained (env : Env) (payload : RefreshPayload)
    (s : ClientState) (rt a : String)
    (hrt : s.refreshToken = some rt) (hrtne : rt.isEmpty = false)
    (henv : envReady env = true)
    (ha : payload.access_token = some a) (hane : a.isEmpty = false)
    (hnorf : payload.refresh_token = none) :
    refreshAccessToken env (.ok (some payload)) s =
      (some a, setAuthTokens s (some a) (some rt)) ∧
    (refreshAccessToken env (.ok (some payload)) s).2.refreshToken = some rt ∧
    (refreshAccessToken env (.ok (some payload)) s).2.token = some a := by
  have h1 : refreshAccessToken env (.ok (some payload)) s =
      (some a, setAuthTokens s (some a) (some rt)) := by
    simp [refreshAccessToken, hrt, hrtne, henv, refreshFinish, ha, hnorf, truthy, hane]
  refine ⟨h1, ?_, ?_⟩ <;>
    rw [h1] <;> simp [setAuthTokens, truthy, hane, hrtne]

/-- Witness for C10: concrete storage and refresh payload with no
refresh_token field; the stored refresh token survives. -/
theorem spec_c10_witness :
    (refreshAccessToken c4Env (.ok (some c10Payload)) c4Store).2.refreshToken =
      some "refresh-1" ∧
    (refreshAccessToken c4Env (.ok (some c10Payload)) c4Store).2.token =
      some "fresh-access" :=
  ⟨(spec_c10_refresh_token_retained c4Env c10Payload c4Store "refresh-1" "fresh-access"
      rfl rfl rfl rfl rfl rfl).2.1,
   (spec_c10_refresh_token_retained c4Env c10Payload c4Store "refresh-1" "fresh-access"
      rfl rfl rfl rfl rfl rfl).2.2⟩

/-- C7: under the schema policies, any of the four row commands on memos or
projects reaches a row exactly when the acting identity equals the row
user_id; hence for distinct owners every cross-owner access is denied. -/
theorem spec_c7_rls_owner_scoped (table : RlsTable) (cmd : SqlCmd) (uid rowUid : String) :
    (rowAccessAllowed table cmd uid rowUid = true ↔ uid = rowUid) ∧
    (uid ≠ rowUid → rowAccessAllowed table cmd uid rowUid = false) := by
  have h : rowAccessAllowed table cmd uid rowUid = true ↔ uid = rowUid := by
    cases table <;> cases cmd <;>
      simp [rowAccessAllowed, schemaPolicies, evalRlsExpr]
  refine ⟨h, fun hne => ?_⟩
  cases hval : rowAccessAllowed table cmd uid rowUid with
  | false => rfl
  | true => exact absurd (h.mp hval) hne

/-- Witness for C7: a concrete distinct pair of owners is denied on memos. -/
theorem spec_c7_witness :
    rowAccessAllowed RlsTable.memos SqlCmd.select "alice" "bob" = false :=
  (spec_c7_rls_owner_scoped RlsTable.memos SqlCmd.select "alice" "bob").2 (by decide)

/-- C4: the refresh protocol is not single-flight.  From the state where
both concurrent callers have received a 401 while a valid refresh token
is stored, the interleaved execution of the api.ts code reaches, in two
steps, a state where both callers have their own refresh fetch in
flight simultaneously: refreshAccessToken consults no shared in-flight
promise, so the start of the second refresh is not blocked by the
first. -/
theorem spec_c4_two_refreshes_in_flight :
    GuardStep c4Env c4s0 c4s1 ∧ GuardStep c4Env c4s1 c4s2 ∧
    c4s2.caller1 = CallerPhase.fetchInFlight "refresh-1" ∧
    c4s2.caller2 = CallerPhase.fetchInFlight "refresh-1" := by
  refine ⟨?_, ?_, rfl, rfl⟩
  · exact GuardStep.start1 c4s0 "refresh-1" rfl rfl rfl rfl
  · exact GuardStep.start2 c4s1 "refresh-1" rfl rfl rfl rfl

/-- When refreshAccessToken returns null it leaves the storage untouched. -/
theorem refresh_none_state (env : Env) (fr : FetchOutcome) (s : ClientState)
    (h : (refreshAccessToken env fr s).1 = none) :
    (refreshAccessToken env fr s).2 = s := by
  unfold refreshAccessToken at h ⊢
  cases hrt : s.refreshToken with
  | none => simp
  | some rt =>
    simp only [hrt] at h ⊢
    by_cases he : rt.isEmpty
    · simp [he]
    · simp only [he, Bool.false_eq_true, if_false, if_neg] at h ⊢
      by_cases hev : envReady env
      · simp only [hev, if_true] at h ⊢
        cases fr with
        | notOk => rfl
        | ok payload =>
          cases payload with
          | none => simp [refreshFinish, truthy]
          | some pl =>
            cases hacc : pl.access_token with
            | none => simp [refreshFinish, hacc, truthy]
            | some a =>
              by_cases hae : a.isEmpty
              · simp [refreshFinish, hacc, truthy, hae]
              · simp [refreshFinish, hacc, truthy, hae] at h
      · simp [hev]

/-- The reissue header mutation never changes the retried marker. -/
theorem applyRetryHeader_retried (cfg : RequestConfig) (tok : String) :
    (applyRetryHeader cfg tok).retriedAfterRefresh = cfg.retriedAfterRefresh := by
  unfold applyRetryHeader
  cases cfg.headers <;> rfl

/-- A config already marked retried is rejected unchanged, with no refresh
attempt. -/
theorem interceptor_retried_rejects (env : Env) (fr : FetchOutcome)
    (status : Option Nat) (cfg : RequestConfig) (s : ClientState)
    (h : cfg.retriedAfterRefresh = true) :
    responseErrorInterceptor env fr status (some cfg) s =
      { action := .rejectOriginal, state := s, refreshCalls := 0 } := by
  simp [responseErrorInterceptor, h]

/-- One interceptor run performs at most one refresh attempt. -/
theorem interceptor_refreshCalls_le_one (env : Env) (fr : FetchOutcome)
    (status : Option Nat) (config : Option RequestConfig) (s : ClientState) :
    (responseErrorInterceptor env fr status config s).refreshCalls ≤ 1 := by
  unfold responseErrorInterceptor
  cases config with
  | none => simp
  | some cfg =>
    by_cases hc : (status == some 401 && !cfg.retriedAfterRefresh)
    · simp only [hc, if_true]
      cases (refreshAccessToken env fr s).1 <;> simp
    · simp [hc]

/-- Every config the interceptor reissues carries the retried marker. -/
theorem interceptor_retry_flag (env : Env) (fr : FetchOutcome)
    (status : Option Nat) (cfg : RequestConfig) (s : ClientState) (cfg2 : RequestConfig)
    (h : (responseErrorInterceptor env fr status (some cfg) s).action = .retry cfg2) :
    cfg2.retriedAfterRefresh = true := by
  unfold responseErrorInterceptor at h
  by_cases hc : (status == some 401 && !cfg.retriedAfterRefresh)
  · simp only [hc, if_true] at h
    cases htok : (refreshAccessToken env fr s).1 with
    | none => rw [htok] at h; exact absurd h (by simp)
    | some tok =>
      rw [htok] at h
      simp only [ErrorAction.retry.injEq] at h
      rw [← h, applyRetryHeader_retried]
  · simp [hc] at h

/-- A run starting from a config already marked retried performs no refresh
and no reissue. -/
theorem runRequest_retried_zero (env : Env) (fr : FetchOutcome)
    (replies : List ServerReply) (s : ClientState) (cfg : RequestConfig)
    (h : cfg.retriedAfterRefresh = true) :
    (runRequest env fr replies s cfg).refreshCalls = 0 ∧
    (runRequest env fr replies s cfg).reissues = 0 := by
  cases replies with
  | nil => simp [runRequest]
  | cons rep rest =>
    cases rep with
    | ok => simp [runRequest]
    | err status =>
      simp [runRequest, interceptor_retried_rejects env fr status cfg s h]

/-- C3: for one original request, every execution of the protocol performs
at most one refresh attempt and at most one reissue, whatever the server
replies to the original and the reissued request. -/
theorem spec_c3_at_most_one_refresh_and_reissue (env : Env) (fr : FetchOutcome)
    (replies : List ServerReply) (s : ClientState) (cfg : RequestConfig) :
    (runRequest env fr replies s cfg).refreshCalls ≤ 1 ∧
    (runRequest env fr replies s cfg).reissues ≤ 1 := by
  cases replies with
  | nil => simp [runRequest]
  | cons rep rest =>
    cases rep with
    | ok => simp [runRequest]
    | err status =>
      cases hact : (responseErrorInterceptor env fr status (some cfg) s).action with
      | retry cfg2 =>
        have hflag := interceptor_retry_flag env fr status cfg s cfg2 hact
        have hz := runRequest_retried_zero env fr rest
          (responseErrorInterceptor env fr status (some cfg) s).state cfg2 hflag
        have hcalls := interceptor_refreshCalls_le_one env fr status (some cfg) s
        simp only [runRequest, hact]
        constructor
        · simpa [hz.1] using hcalls
        · simp [hz.2]
      | rejectOriginal =>
        have hcalls := interceptor_refreshCalls_le_one env fr status (some cfg) s
        simp only [runRequest, hact]
        exact ⟨hcalls, by simp⟩

/-- C1: on a 401 for a not yet retried request while a refresh token is
stored and the refresh yields a new access token, the interceptor makes
exactly one refresh call and reissues the original request exactly once,
marked retried and carrying the new bearer token in its Authorization
header after the request interceptor runs; against a server accepting
the reissue, the caller observes success at the call site with exactly
one refresh and one reissue in total. -/
theorem spec_c1_single_refresh_retry (env : Env) (payload : RefreshPayload)
    (s : ClientState) (cfg : RequestConfig) (rt a : String)
    (hrt : s.refreshToken = some rt) (hrtne : rt.isEmpty = false)
    (henv : envReady env = true)
    (ha : payload.access_token = some a) (hane : a.isEmpty = false)
    (hcfg : cfg.retriedAfterRefresh = false) :
    responseErrorInterceptor env (.ok (some payload)) (some 401) (some cfg) s =
      { action := .retry (applyRetryHeader { cfg with retriedAfterRefresh := true } a),
        state := setAuthTokens s (some a) (some (payload.refresh_token.getD rt)),
        refreshCalls := 1 } ∧
    (applyRetryHeader { cfg with retriedAfterRefresh := true } a).retriedAfterRefresh
      = true ∧
    (requestInterceptor (setAuthTokens s (some a) (some (payload.refresh_token.getD rt)))
        (applyRetryHeader { cfg with retriedAfterRefresh := true } a)).headers =
      some { authorization := some ("Bearer " ++ a) } ∧
    runRequest env (.ok (some payload)) [ServerReply.err (some 401), ServerReply.ok] s cfg =
      { outcome := .success,
        finalState := setAuthTokens s (some a) (some (payload.refresh_token.getD rt)),
        refreshCalls := 1, reissues := 1 } := by
  have hra : refreshAccessToken env (.ok (some payload)) s =
      (some a, setAuthTokens s (some a) (some (payload.refresh_token.getD rt))) := by
    simp [refreshAccessToken, hrt, hrtne, henv, refreshFinish, ha, truthy, hane]
  have h1 : responseErrorInterceptor env (.ok (some payload)) (some 401) (some cfg) s =
      { action := .retry (applyRetryHeader { cfg with retriedAfterRefresh := true } a),
        state := setAuthTokens s (some a) (some (payload.refresh_token.getD rt)),
        refreshCalls := 1 } := by
    simp [responseErrorInterceptor, hcfg, hra]
  refine ⟨h1, by rw [applyRetryHeader_retried], ?_, ?_⟩
  · simp [requestInterceptor, getAuthToken, setAuthTokens, truthy, hane]
  · simp [runRequest, h1]

/-- Witness for C1: a run with a 401, a successful token rotation and a
successful reissue, on concrete tokens. -/
theorem spec_c1_witness :
    (runRequest c4Env (.ok (some c1Payload))
        [ServerReply.err (some 401), ServerReply.ok] c4Store c1Cfg).outcome =
      RunOutcome.success ∧
    (runRequest c4Env (.ok (some c1Payload))
        [ServerReply.err (some 401), ServerReply.ok] c4Store c1Cfg).refreshCalls = 1 ∧
    (runRequest c4Env (.ok (some c1Payload))
        [ServerReply.err (some 401), ServerReply.ok] c4Store c1Cfg).reissues = 1 := by
  have h := (spec_c1_single_refresh_retry c4Env c1Payload c4Store c1Cfg "refresh-1"
    "new-access" rfl rfl rfl rfl rfl rfl).2.2.2
  exact ⟨by rw [h], by rw [h], by rw [h]⟩

/-- C2: on a 401 for a not yet retried request whose refresh attempt fails,
the interceptor rejects with the original error without reissuing,
records the session-expired message, emits the auth-error event followed
by the token-cleared auth-change event, and removes both tokens. -/
theorem spec_c2_refresh_failure_clears_session (env : Env) (fr : FetchOutcome)
    (s : ClientState) (cfg : RequestConfig)
    (hfail : (refreshAccessToken env fr s).1 = none)
    (hcfg : cfg.retriedAfterRefresh = false) :
    (responseErrorInterceptor env fr (some 401) (some cfg) s).action =
      ErrorAction.rejectOriginal ∧
    (responseErrorInterceptor env fr (some 401) (some cfg) s).refreshCalls = 1 ∧
    (responseErrorInterceptor env fr (some 401) (some cfg) s).state.token = none ∧
    (responseErrorInterceptor env fr (some 401) (some cfg) s).state.refreshToken = none ∧
    (responseErrorInterceptor env fr (some 401) (some cfg) s).state.authErrorMsg =
      some "Session expired. Please sign in again." ∧
    (responseErrorInterceptor env fr (some 401) (some cfg) s).state.events =
      s.events ++
        [AuthEvent.authErrorEvt (some "Session expired. Please sign in again."),
         AuthEvent.authChange none] := by
  have hs := refresh_none_state env fr s hfail
  have htr : truthy (some "Session expired. Please sign in again.") = true := rfl
  have h1 : responseErrorInterceptor env fr (some 401) (some cfg) s =
      { action := .rejectOriginal,
        state := clearAuthTokens
          (setAuthError s (some "Session expired. Please sign in again.")),
        refreshCalls := 1 } := by
    simp [responseErrorInterceptor, hcfg, hfail, hs]
  rw [h1]
  refine ⟨rfl, rfl, rfl, rfl, ?_, ?_⟩
  · simp [clearAuthTokens, setAuthError, htr]
  · simp [clearAuthTokens, setAuthError]

/-- Witness for C2: a 401 with no refresh token stored; the session is
cleared and the error propagated. -/
theorem spec_c2_witness :
    (responseErrorInterceptor c4Env FetchOutcome.notOk (some 401) (some c1Cfg)
        c2Client).action = ErrorAction.rejectOriginal ∧
    (responseErrorInterceptor c4Env FetchOutcome.notOk (some 401) (some c1Cfg)
        c2Client).state.token = none ∧
    (responseErrorInterceptor c4Env FetchOutcome.notOk (some 401) (some c1Cfg)
        c2Client).state.refreshToken = none := by
  have h := spec_c2_refresh_failure_clears_session c4Env FetchOutcome.notOk
    c2Client c1Cfg rfl rfl
  exact ⟨h.1, h.2.2.1, h.2.2.2.1⟩

/-- Deleting a key from a dict leaves no field under that key. -/
theorem hasKey_removeKey (o : JObj) (k : String) : hasKey (removeKey o k) k = false := by
  induction o with
  | nil => rfl
  | cons e rest ih =>
    obtain ⟨k2, v⟩ := e
    by_cases h : k2 = k
    · simp [removeKey, h, ih]
    · simp [removeKey, hasKey, h, ih]

/-- Serving a well formed attachment object succeeds and the result has no
path field. -/
theorem serveItem_wf (sign : String → String) (item : JObj) (h : WellFormedItem item) :
    ∃ out, serveItem sign item = some out ∧ hasKey out "path" = false := by
  rcases h with ⟨t, p, mi, c, ht, rfl⟩ | ⟨la, ln, rfl⟩
  · refine ⟨removeKey (mediaItem t p mi c ++ [("url", JPrim.str (sign p))]) "path",
      ?_, hasKey_removeKey _ _⟩
    rcases ht with rfl | rfl <;> simp [serveItem, mediaItem, getVal]
  · exact ⟨locationItem la ln, by simp [serveItem, locationItem, getVal],
      by simp [locationItem, hasKey]⟩

/-- Serving a list of well formed attachment objects succeeds and every
served object has no path field. -/
theorem serveItems_wf (sign : String → String) (items : List JObj)
    (h : ∀ item ∈ items, WellFormedItem item) :
    ∃ outs, serveItems sign items = some outs ∧
      ∀ o ∈ outs, hasKey o "path" = false := by
  induction items with
  | nil => exact ⟨[], rfl, by simp⟩
  | cons item rest ih =>
    obtain ⟨out, hout, hpath⟩ := serveItem_wf sign item (h item (by simp))
    obtain ⟨outs, houts, hpaths⟩ := ih (fun i hi => h i (by simp [hi]))
    refine ⟨out :: outs, by simp [serveItems, hout, houts], ?_⟩
    intro o ho
    rcases List.mem_cons.mp ho with rfl | ho2
    · exact hpath
    · exact hpaths o ho2

/-- C5 counterexample to the claim as stated: the served payload of a
concrete memo contains the raw stored audio path verbatim, in the
top-level audio_path field that the serving rule never strips (the
pseudocode deletes path only inside attachment objects, and the client
Memo type requires audio_path). -/
theorem spec_c5_counterexample :
    (serveMemo c5Sign c5Row).map ServedMemo.audio_path = some "u1/m1.webm" ∧
    c5Row.audioPath = "u1/m1.webm" :=
  ⟨rfl, rfl⟩

/-- C5 amended: serving any memo row whose persisted attachments are the
shapes the repository writes yields a payload in which no attachment
object has a path field and audio_url is the signed audio path, but the
top-level audio_path field still carries the raw stored path. -/
theorem spec_c5_no_path_in_served_attachments (sign : String → String) (m : MemoRow)
    (h : ∀ item ∈ m.attachments, WellFormedItem item) :
    ∃ served, serveMemo sign m = some served ∧
      (∀ item ∈ served.attachments, hasKey item "path" = false) ∧
      served.audio_url = sign m.audioPath ∧
      served.audio_path = m.audioPath := by
  obtain ⟨outs, houts, hpaths⟩ := serveItems_wf sign m.attachments h
  refine ⟨{ id := m.id, content := m.content, audio_path := m.audioPath,
            audio_url := sign m.audioPath, project_id := m.projectId,
            status := m.status, attachments := outs, created_at := m.createdAt },
    ?_, ?_, rfl, rfl⟩
  · simp [serveMemo, houts]
  · simpa using hpaths

/-- Witness for the amended C5 on the concrete row with one media and one
location attachment. -/
theorem spec_c5_witness : servedPathFree c5Sign c5Row = true := by
  obtain ⟨served, hserve, hpaths, _, _⟩ :=
    spec_c5_no_path_in_served_attachments c5Sign c5Row (by
      intro item hi
      rcases List.mem_cons.mp hi with rfl | hi2
      · exact Or.inl ⟨"image", "u1/m1/a.jpg", "image/jpeg", "2026-01-01T00:00:00Z",
          Or.inl rfl, rfl⟩
      · rcases List.mem_cons.mp hi2 with rfl | hi3
        · exact Or.inr ⟨12, 34, rfl⟩
        · exact absurd hi3 (by simp))
  unfold servedPathFree
  rw [hserve]
  simp only [List.all_eq_true, Bool.not_eq_true']
  intro item hi
  exact hpaths item hi

/-- The capture path, owner slash memo id dot webm, is never empty. -/
theorem capturePath_ne_empty (userId id : String) :
    userId ++ "/" ++ id ++ ".webm" ≠ "" := by
  intro h
  have hd : ((userId.data ++ "/".data) ++ id.data) ++ (".webm" : String).data =
      ([] : List Char) := congrArg String.data h
  have h2 : (".webm" : String).data = [] := (List.append_eq_nil.mp hd).2
  exact absurd h2 (by decide)

/-- A successful primary key lookup means the pair is in the table. -/
theorem lookupMemo_mem (store : MemoStore) (id : String) (r : MemoRecord)
    (h : lookupMemo store id = some r) : (id, r) ∈ store := by
  induction store with
  | nil => exact absurd h (by simp [lookupMemo])
  | cons e rest ih =>
    obtain ⟨i, r0⟩ := e
    by_cases hi : i = id
    · subst hi
      simp [lookupMemo] at h
      subst h
      exact List.mem_cons_self _ _
    · simp [lookupMemo, hi] at h
      exact List.mem_cons_of_mem _ (ih h)

/-- Lookup after a row replacement. -/
theorem lookup_replaceMemo (store : MemoStore) (id : String) (nr : MemoRecord)
    (j : String) :
    lookupMemo (replaceMemo store id nr) j =
      if j = id then (lookupMemo store id).map (fun _ => nr)
      else lookupMemo store j := by
  induction store with
  | nil => by_cases hj : j = id <;> simp [replaceMemo, lookupMemo, hj]
  | cons e rest ih =>
    obtain ⟨i, r0⟩ := e
    by_cases hi : i = id
    · subst hi
      by_cases hj : j = i
      · subst hj
        simp [replaceMemo, lookupMemo]
      · have hij : i ≠ j := fun hh => hj hh.symm
        simp [replaceMemo, lookupMemo, hj, hij, ih]
    · by_cases hij : i = j
      · subst hij
        have hjid : i ≠ id := hi
        simp [replaceMemo, lookupMemo, hi, hjid]
      · simp [replaceMemo, lookupMemo, hi, hij, ih]

/-- Lookup after a row deletion. -/
theorem lookup_deleteRows (store : MemoStore) (id j : String) :
    lookupMemo (deleteRows store id) j =
      if j = id then none else lookupMemo store j := by
  induction store with
  | nil => by_cases hj : j = id <;> simp [deleteRows, lookupMemo, hj]
  | cons e rest ih =>
    obtain ⟨i, r0⟩ := e
    by_cases hi : i = id
    · subst hi
      by_cases hj : j = i
      · subst hj
        simp [deleteRows, lookupMemo, ih]
      · have hij : i ≠ j := fun hh => hj hh.symm
        simp [deleteRows, lookupMemo, hj, hij, ih]
    · by_cases hij : i = j
      · subst hij
        have hjid : i ≠ id := hi
        simp [deleteRows, lookupMemo, hi, hjid]
      · simp [deleteRows, lookupMemo, hi, hij, ih]

/-- Every entry of the table after a replacement either carries the new
record or was already present. -/
theorem mem_replaceMemo (store : MemoStore) (id : String) (nr : MemoRecord)
    (e : String × MemoRecord) (he : e ∈ replaceMemo store id nr) :
    e.2 = nr ∨ e ∈ store := by
  induction store with
  | nil => simp [replaceMemo] at he
  | cons f rest ih =>
    obtain ⟨i, r0⟩ := f
    by_cases hi : i = id
    · simp only [replaceMemo, hi, if_pos rfl] at he
      rcases List.mem_cons.mp he with rfl | he2
      · exact Or.inl rfl
      · rcases ih he2 with hh | hh
        · exact Or.inl hh
        · exact Or.inr (List.mem_cons_of_mem _ hh)
    · simp only [replaceMemo, if_neg hi] at he
      rcases List.mem_cons.mp he with rfl | he2
      · exact Or.inr (List.mem_cons_self _ _)
      · rcases ih he2 with hh | hh
        · exact Or.inl hh
        · exact Or.inr (List.mem_cons_of_mem _ hh)

/-- Row deletion only removes entries. -/
theorem mem_deleteRows (store : MemoStore) (id : String)
    (e : String × MemoRecord) (he : e ∈ deleteRows store id) : e ∈ store := by
  induction store with
  | nil => simp [deleteRows] at he
  | cons f rest ih =>
    obtain ⟨i, r0⟩ := f
    by_cases hi : i = id
    · simp only [deleteRows, hi, if_pos rfl] at he
      exact List.mem_cons_of_mem _ (ih he)
    · simp only [deleteRows, if_neg hi] at he
      rcases List.mem_cons.mp he with rfl | he2
      · exact List.mem_cons_self _ _
      · exact List.mem_cons_of_mem _ (ih he2)

/-- One lifecycle operation preserves the memo row invariant. -/
theorem memoInv_applyOp (store : MemoStore) (op : MemoOp) (h : MemoInv store) :
    MemoInv (applyOp store op) := by
  cases op with
  | capture id userId seed =>
    cases hlk : lookupMemo store id with
    | some r => simpa [applyOp, hlk] using h
    | none =>
      simp only [applyOp, hlk]
      rw [if_pos (by rfl)]
      intro e he
      rcases List.mem_cons.mp he with rfl | he2
      · exact ⟨rfl, capturePath_ne_empty userId id⟩
      · exact h e he2
  | transcribe id text =>
    cases hlk : lookupMemo store id with
    | none => simpa [applyOp, hlk] using h
    | some r =>
      simp only [applyOp, hlk]
      split
      next hchk =>
        intro e he
        rcases mem_replaceMemo store id _ e he with h2 | h2
        · exact ⟨by rw [h2]; exact hchk,
            by rw [h2]; exact (h (id, r) (lookupMemo_mem store id r hlk)).2⟩
        · exact h e h2
      next => exact h
  | userUpdate id patch =>
    cases hlk : lookupMemo store id with
    | none => simpa [applyOp, hlk] using h
    | some r =>
      simp only [applyOp, hlk]
      split
      next hchk =>
        intro e he
        rcases mem_replaceMemo store id _ e he with h2 | h2
        · exact ⟨by rw [h2]; exact hchk,
            by rw [h2]; exact (h (id, r) (lookupMemo_mem store id r hlk)).2⟩
        · exact h e h2
      next => exact h
  | deleteOp id =>
    simp only [applyOp]
    intro e he
    exact h e (mem_deleteRows store id e he)

/-- Any sequence of lifecycle operations preserves the memo row invariant. -/
theorem memoInv_applyOps (store : MemoStore) (ops : List MemoOp) (h : MemoInv store) :
    MemoInv (applyOps store ops) := by
  induction ops generalizing store with
  | nil => exact h
  | cons op rest ih =>
    have : applyOps store (op :: rest) = applyOps (applyOp store op) rest := rfl
    rw [this]
    exact ih _ (memoInv_applyOp store op h)

/-- C6: starting from a table satisfying the row invariant, after any
sequence of lifecycle operations every persisted memo row still has a
status inside pending, review_needed, done and a nonempty audio path;
moreover no single operation ever changes the audio path of a row that
persists across it. -/
theorem spec_c6_memo_row_invariants (store : MemoStore) (ops : List MemoOp)
    (h : MemoInv store) :
    MemoInv (applyOps store ops) ∧
    (∀ op id r rNew, lookupMemo store id = some r →
      lookupMemo (applyOp store op) id = some rNew →
      rNew.audioPath = r.audioPath) := by
  refine ⟨memoInv_applyOps store ops h, ?_⟩
  intro op id r rNew hbefore hafter
  cases op with
  | capture cid cu seed =>
    cases hlk : lookupMemo store cid with
    | some r2 =>
      simp only [applyOp, hlk] at hafter
      rw [hbefore] at hafter
      injection hafter with hr
      rw [hr]
    | none =>
      simp only [applyOp, hlk] at hafter
      rw [if_pos (by rfl)] at hafter
      simp only [lookupMemo] at hafter
      by_cases hd : cid = id
      · subst hd
        rw [hlk] at hbefore
        exact absurd hbefore (by simp)
      · rw [if_neg hd] at hafter
        rw [hbefore] at hafter
        injection hafter with hr
        rw [hr]
  | transcribe tid text =>
    cases hlk : lookupMemo store tid with
    | none =>
      simp only [applyOp, hlk] at hafter
      rw [hbefore] at hafter
      injection hafter with hr
      rw [hr]
    | some r0 =>
      simp only [applyOp, hlk] at hafter
      rw [if_pos (by rfl)] at hafter
      rw [lookup_replaceMemo] at hafter
      by_cases hd : id = tid
      · subst hd
        rw [if_pos rfl, hlk] at hafter
        injection hafter with hr
        rw [hlk] at hbefore
        injection hbefore with hb
        rw [← hr, ← hb]
      · rw [if_neg hd] at hafter
        rw [hbefore] at hafter
        injection hafter with hr
        rw [hr]
  | userUpdate uid patch =>
    cases hlk : lookupMemo store uid with
    | none =>
      simp only [applyOp, hlk] at hafter
      rw [hbefore] at hafter
      injection hafter with hr
      rw [hr]
    | some r0 =>
      simp only [applyOp, hlk] at hafter
      split at hafter
      · rw [lookup_replaceMemo] at hafter
        by_cases hd : id = uid
        · subst hd
          rw [if_pos rfl, hlk] at hafter
          injection hafter with hr
          rw [hlk] at hbefore
          injection hbefore with hb
          rw [← hr, ← hb]
        · rw [if_neg hd] at hafter
          rw [hbefore] at hafter
          injection hafter with hr
          rw [hr]
      · rw [hbefore] at hafter
        injection hafter with hr
        rw [hr]
  | deleteOp did =>
    simp only [applyOp] at hafter
    rw [lookup_deleteRows] at hafter
    by_cases hd : id = did
    · rw [if_pos hd] at hafter
      exact absurd hafter (by simp)
    · rw [if_neg hd] at hafter
      rw [hbefore] at hafter
      injection hafter with hr
      rw [hr]

/-- Witness for C6: the invariant holds on the concrete table and still
holds after the concrete operation sequence. -/
theorem spec_c6_witness :
    MemoInv c6Store ∧ MemoInv (applyOps c6Store c6Ops) :=
  ⟨by unfold MemoInv; decide,
   (spec_c6_memo_row_invariants c6Store c6Ops (by unfold MemoInv; decide)).1⟩

/-- Field-by-field description of the synchronous prefix of handleDelete. -/
theorem handleDeletePre_fields (memo : FMemo) (d : DashboardState) :
    (handleDeletePre memo d).memos =
      d.memos.filter (fun item => !(item.id == memo.id)) ∧
    (handleDeletePre memo d).currentPlayingId =
      (if d.currentPlayingId == some memo.id then none else d.currentPlayingId) ∧
    (handleDeletePre memo d).currentMemo =
      (if (d.currentMemo.map FMemo.id) == some memo.id then none else d.currentMemo) ∧
    (handleDeletePre memo d).transcription =
      (if (d.currentMemo.map FMemo.id) == some memo.id then "" else d.transcription) ∧
    (handleDeletePre memo d).state =
      (if (d.currentMemo.map FMemo.id) == some memo.id then RecorderState.idle
       else d.state) ∧
    (handleDeletePre memo d).errorMsg = none := by
  unfold handleDeletePre stopAudioPlayback
  by_cases h1 : (d.currentPlayingId == some memo.id) = true <;>
    by_cases h2 : ((d.currentMemo.map FMemo.id) == some memo.id) = true <;>
      simp [h1, h2]

/-- C8: on a confirmed delete, before the DELETE request is awaited the
memo is already removed from the timeline, playback is stopped when that
memo was playing, and the editor is cleared to idle when that memo was
open; a successful DELETE changes nothing further, while a failed DELETE
sets the delete error message and replaces the list with the refetched
server list instead of manually reverting; an unconfirmed delete changes
nothing. -/
theorem spec_c8_optimistic_delete (memo : FMemo) (d : DashboardState)
    (serverList : List FMemo) :
    (∀ item ∈ (handleDeletePre memo d).memos, item.id ≠ memo.id) ∧
    (d.currentPlayingId = some memo.id →
      (handleDeletePre memo d).currentPlayingId = none) ∧
    (∀ cm, d.currentMemo = some cm → cm.id = memo.id →
      (handleDeletePre memo d).currentMemo = none ∧
      (handleDeletePre memo d).transcription = "" ∧
      (handleDeletePre memo d).state = RecorderState.idle) ∧
    handleDelete true memo DeleteOutcome.ok (some serverList) d =
      handleDeletePre memo d ∧
    handleDelete true memo DeleteOutcome.err (some serverList) d =
      { handleDeletePre memo d with
        errorMsg := some "Failed to delete memo. Refreshing list.",
        memos := sortByCreatedAtDesc serverList } ∧
    handleDelete false memo DeleteOutcome.ok (some serverList) d = d := by
  obtain ⟨hm, hp, hcm, htr, hst, _⟩ := handleDeletePre_fields memo d
  refine ⟨?_, ?_, ?_, ?_, ?_, ?_⟩
  · intro item hi
    rw [hm] at hi
    have := (List.mem_filter.mp hi).2
    simpa using this
  · intro hplay
    rw [hp, hplay]
    simp
  · intro cm hcur hid
    refine ⟨?_, ?_, ?_⟩
    · rw [hcm, hcur]; simp [hid]
    · rw [htr, hcur]; simp [hid]
    · rw [hst, hcur]; simp [hid]
  · simp [handleDelete]
  · simp [handleDelete, fetchMemosInto]
  · simp [handleDelete]

/-- Witness for C8: on the concrete dashboard the playing, open memo is
deleted; playback stops, the editor resets to idle and the timeline no
longer contains it. -/
theorem spec_c8_witness :
    (handleDeletePre c8Memo c8Dash).currentPlayingId = none ∧
    (handleDeletePre c8Memo c8Dash).state = RecorderState.idle ∧
    (∀ item ∈ (handleDeletePre c8Memo c8Dash).memos, item.id ≠ c8Memo.id) :=
  ⟨(spec_c8_optimistic_delete c8Memo c8Dash []).2.1 rfl,
   ((spec_c8_optimistic_delete c8Memo c8Dash []).2.2.1 c8Memo rfl rfl).2.2,
   (spec_c8_optimistic_delete c8Memo c8Dash []).1⟩

end NiceCatcher
